import Mathlib

/-!
Verification of the `.base` view-file pipeline of the mdbase CLI:
the parser (`parseBaseFile` / `validateBaseStructure` / `normalizeView`),
the expression translator (`translateExpression`, `translateFilter`),
the executor (`executeBase` / `executeView` / `resolveColumns` /
`normalizePropertyId` / `getColumnValue`) and the output formatter
(`printJSON`, `printPaths`).

Shallow embedding conventions:
* JavaScript strings are Lean `String`s; the character-level loops below
  operate on `String.data` (the list of characters) so that every
  definition is structurally recursive and kernel-evaluable.
* `undefined`/missing values are `Option.none`; JavaScript's `??`
  (nullish coalescing) is `Option.getD` / an explicit `match`.
* JavaScript truthiness tests on strings (`if (s)`) are modelled as
  `s ≠ ""` on present strings, and on arrays (always truthy) accordingly.
* Records are association lists `List (String × _)`; assignment
  `obj[k] = v` is an overwriting upsert.
* `async` functions and the collection collaborator are modelled by an
  explicit query function `QueryRequest → QueryResponse`; thrown
  `BaseExecutionError`s become `Except BaseExecutionError _`.
-/

/-- A deserialized YAML/JSON value (the `unknown` values that flow through
the parser, query results and formatter). Numbers are modelled as `Int`;
no claim below depends on non-integer numerics. -/
inductive Val where
  | null : Val
  | bool : Bool → Val
  | num : Int → Val
  | str : String → Val
  | arr : List Val → Val
  | obj : List (String × Val) → Val
  deriving Repr

/-- JavaScript `typeof v === "object"`: true exactly for plain objects,
arrays and `null` among deserialized YAML values. -/
def jsTypeofIsObject : Val → Bool
  | .null => true
  | .arr _ => true
  | .obj _ => true
  | _ => false

/-- JavaScript `Array.isArray`. -/
def jsIsArray : Val → Bool
  | .arr _ => true
  | _ => false

/-- Overwriting record assignment `obj[k] = v`: replaces the value of an
existing key in place, otherwise appends the new binding. -/
def upsert : List (String × Val) → String → Val → List (String × Val)
  | [], k, v => [(k, v)]
  | (k', v') :: rest, k, v =>
      if k' = k then (k, v) :: rest else (k', v') :: upsert rest k v

/-- String prefix test on the character lists (JavaScript
`s.startsWith(pre)`), kept kernel-evaluable. -/
def strStartsWith (s pre : String) : Bool :=
  pre.data.isPrefixOf s.data

/-- `s.slice(n)` / dropping the first `n` characters, kernel-evaluable. -/
def strDrop (s : String) (n : Nat) : String :=
  String.mk (s.data.drop n)

/-- ASCII lower-casing of one character (JavaScript `toLowerCase` on the
ASCII range, which is all the view names the claims exercise). -/
def lowerChar (c : Char) : Char :=
  if 'A' ≤ c ∧ c ≤ 'Z' then Char.ofNat (c.toNat + 32) else c

/-- JavaScript `s.toLowerCase()`. -/
def strToLower (s : String) : String :=
  String.mk (s.data.map lowerChar)

/-! ## normalizePropertyId (executor)

Source:
```
export function normalizePropertyId(propId: string): string {
  if (propId.startsWith("note.")) {
    return propId.slice(5);
  }
  return propId;
}
```
-/

/-- `normalizePropertyId`: strip one leading `note.` prefix. -/
def normalizePropertyId (propId : String) : String :=
  if strStartsWith propId "note." then strDrop propId 5 else propId

/-! ## translateExpression (executor)

Source:
```
function translateExpression(expr: string): string {
  let result = expr.replace(/\bnote\./g, "");
  result = result.replace(/\bfile\(([^)]+)\)/g, "$1.asFile()");
  result = result.replace(/\bicon\(([^)]+)\)/g, "$1");
  return result;
}
```
The three global regex replacements are modelled as left-to-right scans
over the character list.  A `\b` before the first (word) character of a
pattern holds exactly when the previous character of the original string
is absent or not a word character; after a match the scan resumes after
the matched text (replacements are not rescanned).  The `fuel` argument
only makes the recursion structural: every step consumes at least one
character, so `fuel = length of the input` always suffices and the
wrappers pass exactly that. -/

/-- JavaScript regex word character (`\w` = `[A-Za-z0-9_]`). -/
def isWordChar (c : Char) : Bool :=
  c.isAlphanum || c = '_'

/-- `\b` holds before a word character at this position: the previous
original character (if any) is not a word character. -/
def boundaryBefore : Option Char → Bool
  | none => true
  | some c => !isWordChar c

/-- One global-replace scan for `/\bnote\./g` with replacement `""`. -/
def stripNoteAux : Nat → Option Char → List Char → List Char
  | 0, _, l => l
  | _ + 1, _, [] => []
  | fuel + 1, prev, 'n' :: 'o' :: 't' :: 'e' :: '.' :: rest =>
      if boundaryBefore prev then
        stripNoteAux fuel (some '.') rest
      else
        'n' :: stripNoteAux fuel (some 'n') ('o' :: 't' :: 'e' :: '.' :: rest)
  | fuel + 1, _, c :: rest => c :: stripNoteAux fuel (some c) rest

/-- Capture of `([^)]+)\)` immediately after an opening paren: the
(non-empty, greedy) run of non-`)` characters, the following `)`, and
the rest of the input; `none` when the group cannot match. -/
def captureArg (l : List Char) : Option (List Char × List Char) :=
  let arg := l.takeWhile (fun c => c ≠ ')')
  if arg.isEmpty then none
  else
    match l.drop arg.length with
    | ')' :: rest => some (arg, rest)
    | _ => none

/-- One global-replace scan for `/\bfile\(([^)]+)\)/g` with replacement
`$1.asFile()`. -/
def replFileAux : Nat → Option Char → List Char → List Char
  | 0, _, l => l
  | _ + 1, _, [] => []
  | fuel + 1, prev, 'f' :: 'i' :: 'l' :: 'e' :: '(' :: rest =>
      if boundaryBefore prev then
        match captureArg rest with
        | some (arg, rest') =>
            arg ++ ".asFile()".data ++ replFileAux fuel (some ')') rest'
        | none =>
            'f' :: replFileAux fuel (some 'f') ('i' :: 'l' :: 'e' :: '(' :: rest)
      else
        'f' :: replFileAux fuel (some 'f') ('i' :: 'l' :: 'e' :: '(' :: rest)
  | fuel + 1, _, c :: rest => c :: replFileAux fuel (some c) rest

/-- One global-replace scan for `/\bicon\(([^)]+)\)/g` with replacement
`$1`. -/
def replIconAux : Nat → Option Char → List Char → List Char
  | 0, _, l => l
  | _ + 1, _, [] => []
  | fuel + 1, prev, 'i' :: 'c' :: 'o' :: 'n' :: '(' :: rest =>
      if boundaryBefore prev then
        match captureArg rest with
        | some (arg, rest') => arg ++ replIconAux fuel (some ')') rest'
        | none =>
            'i' :: replIconAux fuel (some 'i') ('c' :: 'o' :: 'n' :: '(' :: rest)
      else
        'i' :: replIconAux fuel (some 'i') ('c' :: 'o' :: 'n' :: '(' :: rest)
  | fuel + 1, _, c :: rest => c :: replIconAux fuel (some c) rest

/-- `expr.replace(/\bnote\./g, "")`. -/
def stripNote (l : List Char) : List Char :=
  stripNoteAux l.length none l

/-- `result.replace(/\bfile\(([^)]+)\)/g, "$1.asFile()")`. -/
def replFile (l : List Char) : List Char :=
  replFileAux l.length none l

/-- `result.replace(/\bicon\(([^)]+)\)/g, "$1")`. -/
def replIcon (l : List Char) : List Char :=
  replIconAux l.length none l

/-- `translateExpression`: the three rewrites applied in source order. -/
def translateExpression (expr : String) : String :=
  String.mk (replIcon (replFile (stripNote expr.data)))

/-! ## Filter trees and their translation (parser + executor)

Source type (parser):
```
export interface BaseFilter {
  and?: Array<string | BaseFilter>;
  or?: Array<string | BaseFilter>;
  not?: Array<string | BaseFilter>;
}
export type FilterExpression = string | BaseFilter;
```
`translateFilter` probes the keys in the order `and`, `or`, `not` and
falls back to the string `"true"` for a structured node with none of the
three keys.  The embedding is the corresponding tagged union: one
constructor per present key (a node carrying several keys behaves as its
first present key in probe order, which the tagged union represents by
that constructor), plus `bare` for the no-keys object. -/
inductive FilterExpression where
  | leaf : String → FilterExpression
  | and : List FilterExpression → FilterExpression
  | or : List FilterExpression → FilterExpression
  | not : List FilterExpression → FilterExpression
  | bare : FilterExpression
  deriving Repr

/-- An mdbase where-clause as built by the executor: either an expression
string or one of the structured combinators; mdbase's `not` takes a
single operand. -/
inductive TargetFilter where
  | str : String → TargetFilter
  | and : List TargetFilter → TargetFilter
  | or : List TargetFilter → TargetFilter
  | not : TargetFilter → TargetFilter
  deriving Repr

mutual
/-- `translateFilter` (executor): leaves go through `translateExpression`;
`and`/`or` translate structurally; `not` wraps a single translated child
directly and two-or-more children in an implicit `and`. -/
def translateFilter : FilterExpression → TargetFilter
  | .leaf s => .str (translateExpression s)
  | .and cs => .and (translateFilterList cs)
  | .or cs => .or (translateFilterList cs)
  | .not cs =>
      match translateFilterList cs with
      | [t] => .not t
      | items => .not (.and items)
  | .bare => .str "true"

/-- `filter.xs.map(translateFilter)`. -/
def translateFilterList : List FilterExpression → List TargetFilter
  | [] => []
  | f :: fs => translateFilter f :: translateFilterList fs
end

/-- `buildWhere` (executor): collect the present global and view filters;
none gives no clause, one is translated alone, both are combined under a
top-level `and`. -/
def buildWhere (globalFilter viewFilter : Option FilterExpression) :
    Option TargetFilter :=
  match globalFilter, viewFilter with
  | none, none => none
  | some g, none => some (translateFilter g)
  | none, some v => some (translateFilter v)
  | some g, some v => some (.and [translateFilter g, translateFilter v])

/-! ## Parsed view files (parser) -/

/-- `BaseGroupBy`. -/
structure BaseGroupBy where
  property : String
  direction : Option String
  deriving Repr

/-- `BaseView` (parser): the view kind is the string `type` field
(`table`/`cards`/`list`/`map`); every other attribute is optional. -/
structure BaseView where
  type : String
  name : Option String := none
  limit : Option Int := none
  filters : Option FilterExpression := none
  groupBy : Option BaseGroupBy := none
  order : Option (List String) := none
  summaries : Option (List (String × String)) := none
  rowHeight : Option String := none
  coverProperty : Option String := none
  imageFit : Option String := none
  aspectRatio : Option String := none
  cardSize : Option String := none
  listStyle : Option String := none
  separator : Option String := none
  coordinatesProperty : Option String := none
  tileUrl : Option String := none
  deriving Repr

/-- `BasePropertyConfig`: only `displayName` is interpreted; the other
attributes are opaque pass-through. -/
structure BasePropertyConfig where
  displayName : Option String := none
  extra : List (String × Val) := []
  deriving Repr

/-- `BaseFile` (parser).  `formulas` values are kept untyped (`Val`)
because the executor re-checks `typeof expr === "string"` at use sites. -/
structure BaseFile where
  filters : Option FilterExpression := none
  formulas : Option (List (String × Val)) := none
  properties : Option (List (String × BasePropertyConfig)) := none
  summaries : Option (List (String × String)) := none
  views : Option (List BaseView) := none
  deriving Repr

/-- The raw top-level YAML mapping handed to `validateBaseStructure`:
each optional section is an arbitrary deserialized value when present. -/
structure RawBaseFile where
  filters : Option Val := none
  formulas : Option Val := none
  properties : Option Val := none
  summaries : Option Val := none
  views : Option Val := none
  deriving Repr

/-- The shape-checked document produced by `validateBaseStructure`, with
sections still untyped; a `views` section that passed `Array.isArray`
keeps its element list (each element is then normalized per view, which
is modelled separately by `normalizeView` at the typed level). -/
structure ShapedBaseFile where
  filters : Option Val := none
  formulas : Option Val := none
  properties : Option Val := none
  summaries : Option Val := none
  views : Option (List Val) := none
  deriving Repr

/-- `validateBaseStructure` (parser): `filters` is copied whenever
present; `formulas`/`properties`/`summaries` are copied when present and
`typeof raw.x === "object"`; `views` is copied when present and
`Array.isArray(raw.views)`. -/
def validateBaseStructure (raw : RawBaseFile) : ShapedBaseFile :=
  { filters := raw.filters
    formulas :=
      match raw.formulas with
      | some y => if jsTypeofIsObject y then some y else none
      | none => none
    properties :=
      match raw.properties with
      | some y => if jsTypeofIsObject y then some y else none
      | none => none
    summaries :=
      match raw.summaries with
      | some y => if jsTypeofIsObject y then some y else none
      | none => none
    views :=
      match raw.views with
      | some (.arr l) => some l
      | _ => none }

/-- The raw (pre-normalization) view entry: the same attributes as
`BaseView` but with `type` still optional. -/
structure RawBaseView where
  type : Option String := none
  name : Option String := none
  limit : Option Int := none
  filters : Option FilterExpression := none
  groupBy : Option BaseGroupBy := none
  order : Option (List String) := none
  summaries : Option (List (String × String)) := none
  rowHeight : Option String := none
  coverProperty : Option String := none
  imageFit : Option String := none
  aspectRatio : Option String := none
  cardSize : Option String := none
  listStyle : Option String := none
  separator : Option String := none
  coordinatesProperty : Option String := none
  tileUrl : Option String := none
  deriving Repr

/-- `normalizeView` (parser): `type` defaults to `"table"`; every other
attribute is copied exactly when it is not null/undefined (`!= null`),
with no validation of its value. -/
def normalizeView (raw : RawBaseView) : BaseView :=
  { type := raw.type.getD "table"
    name := raw.name
    limit := raw.limit
    filters := raw.filters
    groupBy := raw.groupBy
    order := raw.order
    summaries := raw.summaries
    rowHeight := raw.rowHeight
    coverProperty := raw.coverProperty
    imageFit := raw.imageFit
    aspectRatio := raw.aspectRatio
    cardSize := raw.cardSize
    listStyle := raw.listStyle
    separator := raw.separator
    coordinatesProperty := raw.coordinatesProperty
    tileUrl := raw.tileUrl }

/-! ## Executor -/

/-- One result row from the collection collaborator. -/
structure BaseResultRow where
  path : String
  frontmatter : List (String × Val) := []
  types : List String := []
  body : Option String := none
  formulas : Option (List (String × Val)) := none
  deriving Repr

/-- One sort key of the query's `order_by`. -/
structure OrderSpec where
  field : String
  direction : Option String := none
  deriving Repr

/-- The request issued to `collection.query`.  The `where` clause is
named `whereClause` because `where` is a Lean keyword. -/
structure QueryRequest where
  whereClause : Option TargetFilter := none
  order_by : Option (List OrderSpec) := none
  limit : Option Int := none
  include_body : Bool := false
  formulas : Option (List (String × String)) := none
  deriving Repr

/-- Collaborator error payload. -/
structure QueryErr where
  code : String
  message : String
  deriving Repr

/-- Collaborator result metadata. -/
structure QueryMeta where
  total_count : Option Int := none
  has_more : Option Bool := none
  deriving Repr

/-- The response of `collection.query`. -/
structure QueryResponse where
  error : Option QueryErr := none
  results : List BaseResultRow := []
  meta : Option QueryMeta := none
  deriving Repr

/-- `BaseExecutionError` (message plus machine-readable code). -/
structure BaseExecutionError where
  message : String
  code : String
  deriving Repr, DecidableEq

/-- `ExecuteOptions`. -/
structure ExecuteOptions where
  viewName : Option String := none
  fields : Option (List String) := none
  limit : Option Int := none
  includeBody : Option Bool := none
  deriving Repr

/-- `BaseResult`: the per-view execution result handed to the formatter. -/
structure BaseResult where
  view : BaseView
  columns : List String
  displayNames : List (String × String)
  rows : List BaseResultRow
  totalCount : Int
  hasMore : Bool
  deriving Repr

/-- `buildOrderBy` (executor): a single sort key derived from `groupBy`,
`direction?.toLowerCase() ?? "asc"`. -/
def buildOrderBy (view : BaseView) : Option (List OrderSpec) :=
  match view.groupBy with
  | none => none
  | some g =>
      some [{ field := normalizePropertyId g.property
              direction := some ((g.direction.map strToLower).getD "asc") }]

/-- Formula filtering of `executeView` step 4: keep entries whose name is
non-empty and whose value is a non-empty string, translating each kept
expression; an empty surviving set collapses to omission (`undefined`). -/
def filterFormulas (formulas : Option (List (String × Val))) :
    Option (List (String × String)) :=
  match formulas with
  | none => none
  | some entries =>
      let filtered := entries.foldr
        (fun (e : String × Val) acc =>
          match e with
          | (name, .str expr) =>
              if name ≠ "" ∧ expr ≠ "" then
                (name, translateExpression expr) :: acc
              else acc
          | _ => acc) []
      if filtered.length > 0 then some filtered else none

/-- `fields.add(key)` on an insertion-ordered `Set`: append the key when
it is not already present. -/
def addField (acc : List String) (k : String) : List String :=
  if k ∈ acc then acc else acc ++ [k]

/-- Adding one row's auto-detected keys: its front-matter keys except the
literal key `type`, then `formula.`-prefixed keys for its formula
values. -/
def addRowFields (acc : List String) (row : BaseResultRow) : List String :=
  let acc1 := (row.frontmatter.map Prod.fst).foldl
    (fun a k => if k = "type" then a else addField a k) acc
  match row.formulas with
  | some fs => (fs.map Prod.fst).foldl
      (fun a k => addField a ("formula." ++ k)) acc1
  | none => acc1

/-- `resolveColumns` (executor): CLI field overrides win outright, then
the view's `order` list (normalized), else auto-detection from the rows
plus the document's declared formulas. -/
def resolveColumns (baseFile : BaseFile) (view : BaseView)
    (rows : List BaseResultRow) (fieldOverrides : Option (List String)) :
    List String :=
  match fieldOverrides with
  | some fo =>
      if fo.length > 0 then fo else resolveColumnsNoOverride baseFile view rows
  | none => resolveColumnsNoOverride baseFile view rows
where
  resolveColumnsNoOverride (baseFile : BaseFile) (view : BaseView)
      (rows : List BaseResultRow) : List String :=
    match view.order with
    | some ord =>
        if ord.length > 0 then ord.map normalizePropertyId
        else autoDetect baseFile rows
    | none => autoDetect baseFile rows
  autoDetect (baseFile : BaseFile) (rows : List BaseResultRow) :
      List String :=
    let fields := rows.foldl addRowFields []
    match baseFile.formulas with
    | some fs => (fs.map Prod.fst).foldl
        (fun a k => addField a ("formula." ++ k)) fields
    | none => fields

/-- The display-name map of `executeView` step 6: for each property
config carrying a truthy (non-empty) `displayName`, register it under
the normalized property id, later entries overwriting earlier ones. -/
def buildDisplayNames (properties : Option (List (String × BasePropertyConfig))) :
    List (String × String) :=
  match properties with
  | none => []
  | some entries =>
      entries.foldl
        (fun m (e : String × BasePropertyConfig) =>
          match e.2.displayName with
          | some d =>
              if d ≠ "" then upsertStr m (normalizePropertyId e.1) d else m
          | none => m) []
where
  upsertStr : List (String × String) → String → String → List (String × String)
    | [], k, v => [(k, v)]
    | (k', v') :: rest, k, v =>
        if k' = k then (k, v) :: rest else (k', v') :: upsertStr rest k v

/-- The query request `executeView` sends to the collaborator: combined
where clause, groupBy-derived sort, `opts.limit ?? view.limit`,
`opts.includeBody ?? false`, and the filtered/translated formulas. -/
def buildQueryRequest (baseFile : BaseFile) (view : BaseView)
    (opts : ExecuteOptions) : QueryRequest :=
  { whereClause := buildWhere baseFile.filters view.filters
    order_by := buildOrderBy view
    limit := opts.limit.orElse fun _ => view.limit
    include_body := opts.includeBody.getD false
    formulas := filterFormulas baseFile.formulas }

/-- `executeView` (executor): issue the query, surface a collaborator
error as a thrown `BaseExecutionError`, otherwise assemble the
`BaseResult` with resolved columns and display names. -/
def executeView (baseFile : BaseFile) (view : BaseView)
    (query : QueryRequest → QueryResponse) (opts : ExecuteOptions) :
    Except BaseExecutionError BaseResult :=
  let res := query (buildQueryRequest baseFile view opts)
  match res.error with
  | some e => .error { message := e.message, code := e.code }
  | none =>
      let rows := res.results
      .ok
        { view := view
          columns := resolveColumns baseFile view rows opts.fields
          displayNames := buildDisplayNames baseFile.properties
          rows := rows
          totalCount := ((res.meta.bind QueryMeta.total_count).getD
            (Int.ofNat rows.length))
          hasMore := (res.meta.bind QueryMeta.has_more).getD false }

/-- The synthetic default view `{ type: "table" }`. -/
def syntheticTableView : BaseView := { type := "table" }

/-- The label of a view in the `view_not_found` detail list:
`v.name ?? "(unnamed <kind>)"`. -/
def viewLabel (v : BaseView) : String :=
  v.name.getD ("(unnamed " ++ v.type ++ ")")

/-- The sequential per-view loop of `executeBase`: the first failing view
aborts the whole execution. -/
def runViews (baseFile : BaseFile) (query : QueryRequest → QueryResponse)
    (opts : ExecuteOptions) : List BaseView →
    Except BaseExecutionError (List BaseResult)
  | [] => .ok []
  | v :: vs =>
      match executeView baseFile v query opts with
      | .error e => .error e
      | .ok r =>
          match runViews baseFile query opts vs with
          | .error e => .error e
          | .ok rs => .ok (r :: rs)

/-- `executeBase` (executor): resolve the working set of views
(`baseFile.views ?? [{type: "table"}]`), honour a truthy
`opts.viewName` by case-insensitive match (throwing `view_not_found`
listing all available view labels when nothing matches), then execute
each selected view in order. -/
def executeBase (baseFile : BaseFile)
    (query : QueryRequest → QueryResponse) (opts : ExecuteOptions) :
    Except BaseExecutionError (List BaseResult) :=
  let views := baseFile.views.getD [syntheticTableView]
  match opts.viewName with
  | some vn =>
      if vn = "" then
        -- the empty string is falsy: `if (opts.viewName)` skips matching
        runViews baseFile query opts views
      else
        match views.find? (fun v =>
            match v.name with
            | some n => strToLower n = strToLower vn
            | none => false) with
        | some m => runViews baseFile query opts [m]
        | none =>
            .error
              { message := "view not found: \"" ++ vn ++ "\" (available: "
                  ++ String.intercalate ", " (views.map viewLabel) ++ ")"
                code := "view_not_found" }
  | none => runViews baseFile query opts views

/-! ## Column values and the formatter -/

/-- First-match association-list lookup (JavaScript property access on a
deserialized record). -/
def lookupVal : List (String × Val) → String → Option Val
  | [], _ => none
  | (k, v) :: rest, key => if k = key then some v else lookupVal rest key

/-- `path.split("/")`: split a string on `/`, keeping empty segments; the
result is never empty. -/
def splitSlashAux : List Char → List Char → List (List Char)
  | [], cur => [cur.reverse]
  | '/' :: rest, cur => cur.reverse :: splitSlashAux rest []
  | c :: rest, cur => splitSlashAux rest (c :: cur)

/-- `path.split("/")` on strings. -/
def splitSlash (s : String) : List String :=
  (splitSlashAux s.data []).map String.mk

/-- `parts.join("/")`. -/
def joinSlash : List String → String
  | [] => ""
  | [p] => p
  | p :: rest => p ++ "/" ++ joinSlash rest

/-- `getColumnValue` (executor): built-in `file.*` pseudo-columns first,
then `formula.*` lookups, then raw front-matter fields; absent keys give
`null` (the `?? null` fallbacks).  `split("/").pop()` always yields a
string because `split` never returns an empty array, hence the `getD`
default is unreachable. -/
def getColumnValue (row : BaseResultRow) (column : String) : Val :=
  if column = "file.name" ∨ column = "file.path" then
    if column = "file.path" then .str row.path
    else .str ((splitSlash row.path).getLast?.getD "")
  else if column = "file.folder" then
    let parts := splitSlash row.path
    if parts.length > 1 then .str (joinSlash parts.dropLast) else .str ""
  else if strStartsWith column "formula." then
    let formulaName := strDrop column 8
    match row.formulas with
    | some fs => (lookupVal fs formulaName).getD .null
    | none => .null
  else
    (lookupVal row.frontmatter column).getD .null

/-- `rowToObject` (formatter): `{ path: row.path }` then one assignment
per column with the resolved column value. -/
def rowToObject (row : BaseResultRow) (columns : List String) : Val :=
  .obj (columns.foldl (fun o c => upsert o c (getColumnValue row c))
    [("path", .str row.path)])

/-- The per-view JSON object built by `printJSON`/`printYAML`:
`{view: {type, name?}, columns, results, meta: {total_count, has_more?}}`;
a falsy (absent or empty) view name and a false `hasMore` are omitted by
the object spreads. -/
def viewResultToJson (r : BaseResult) : Val :=
  .obj
    [("view", .obj (("type", Val.str r.view.type) ::
        (match r.view.name with
         | some n => if n ≠ "" then [("name", Val.str n)] else []
         | none => []))),
     ("columns", .arr (r.columns.map Val.str)),
     ("results", .arr (r.rows.map fun row => rowToObject row r.columns)),
     ("meta", .obj (("total_count", Val.num r.totalCount) ::
        (if r.hasMore then [("has_more", Val.bool true)] else [])))]

/-- `printJSON` (formatter), modelled as the JSON value passed to
`JSON.stringify`: the mapped per-view objects, unwrapped to the bare
object when there is exactly one (`output.length === 1`). -/
def printJSON (results : List BaseResult) : Val :=
  let output := results.map viewResultToJson
  match output with
  | [single] => single
  | _ => .arr output

/-- The nested loop of `printPaths` over the flattened path stream:
print a path unless the `seen` set already holds it. -/
def printPathsAux (seen : List String) : List String → List String
  | [] => []
  | p :: ps =>
      if p ∈ seen then printPathsAux seen ps
      else p :: printPathsAux (p :: seen) ps

/-- `printPaths` (formatter), modelled as the list of printed lines: the
rows of all views in view order, each path printed on first sight only. -/
def printPaths (results : List BaseResult) : List String :=
  printPathsAux [] ((results.map fun r => r.rows.map BaseResultRow.path).flatten)

/-- Specification-side first-seen deduplication: keep the first
occurrence of each element, in order of first occurrence. -/
def firstSeen : List String → List String
  | [] => []
  | p :: ps => p :: firstSeen (ps.filter fun q => q ≠ p)
termination_by l => l.length
decreasing_by
  simp only [List.length_cons]
  exact Nat.lt_succ_of_le (List.length_filter_le _ _)

/-! ## Specification-side comparison definitions and concrete instances -/

/-- The auto-detection key stream contributed by one row, per the spec's
wording: its front-matter field names excluding the literal key `type`,
then one `formula.`-prefixed entry per formula key present on the row. -/
def rowKeyStream (row : BaseResultRow) : List String :=
  ((row.frontmatter.map Prod.fst).filter fun k => k ≠ "type") ++
    (match row.formulas with
     | some fs => fs.map fun e => "formula." ++ e.1
     | none => [])

/-- One `formula.`-prefixed entry per formula declared in the document. -/
def docFormulaStream (baseFile : BaseFile) : List String :=
  match baseFile.formulas with
  | some fs => fs.map fun e => "formula." ++ e.1
  | none => []

/-- Auto-detected columns as the spec words them: the first-seen-order
union of every row's key stream followed by the document's declared
formulas. -/
def autoDetectSpec (baseFile : BaseFile) (rows : List BaseResultRow) :
    List String :=
  firstSeen ((rows.map rowKeyStream).flatten ++ docFormulaStream baseFile)

/-- A collaborator that reports no error, no rows and no metadata. -/
def q0 : QueryRequest → QueryResponse := fun _ => {}

/-- A parsed document whose `views` section is present but empty. -/
def doc3 : BaseFile := { views := some [] }

/-- A parsed document with a single table view named `Alpha`. -/
def doc7 : BaseFile :=
  { views := some [{ type := "table", name := some "Alpha" }] }

/-- A raw document whose `formulas` section deserialized to a sequence. -/
def rawSeqFormulas : RawBaseFile := { formulas := some (.arr [.str "x"]) }

/-- A minimal `BaseResult` used to instantiate formatter theorems. -/
def r8a : BaseResult :=
  { view := syntheticTableView, columns := [], displayNames := [],
    rows := [], totalCount := 0, hasMore := false }

/-! ## Helper lemmas -/

theorem isPrefixOf_note_split (l : List Char)
    (h : ("note.".data).isPrefixOf l = true) :
    ∃ t, l = "note.".data ++ t := by
  rw [List.isPrefixOf_iff_prefix] at h
  obtain ⟨t, ht⟩ := h
  exact ⟨t, ht.symm⟩

theorem translateFilterList_eq_map (l : List FilterExpression) :
    translateFilterList l = l.map translateFilter := by
  induction l with
  | nil => simp [translateFilterList]
  | cons f fs ih => simp [translateFilterList, ih]

theorem printPathsAux_eq_firstSeen (l seen : List String) :
    printPathsAux seen l = firstSeen (l.filter fun p => decide (p ∉ seen)) := by
  induction l generalizing seen with
  | nil => simp [printPathsAux, firstSeen]
  | cons p ps ih =>
    by_cases hp : p ∈ seen
    · rw [printPathsAux, if_pos hp, List.filter_cons_of_neg (by simp [hp]), ih]
    · rw [printPathsAux, if_neg hp, List.filter_cons_of_pos (by simp [hp]), ih]
      rw [firstSeen, List.filter_filter]
      have hpred : ps.filter (fun q => decide (q ∉ p :: seen)) =
          ps.filter (fun a => decide (a ≠ p) && decide (a ∉ seen)) := by
        apply List.filter_congr
        intro q _
        by_cases h1 : q = p <;> by_cases h2 : q ∈ seen <;> simp [h1, h2]
      rw [hpred]

theorem foldl_addField_eq (ks acc : List String) :
    ks.foldl addField acc =
      acc ++ firstSeen (ks.filter fun k => decide (k ∉ acc)) := by
  induction ks generalizing acc with
  | nil => simp [firstSeen]
  | cons k ks ih =>
    by_cases hk : k ∈ acc
    · rw [List.foldl_cons]
      simp only [addField, if_pos hk]
      rw [List.filter_cons_of_neg (by simp [hk]), ih]
    · rw [List.foldl_cons]
      simp only [addField, if_neg hk]
      rw [ih, List.filter_cons_of_pos (by simp [hk])]
      rw [firstSeen, List.filter_filter, List.append_assoc,
        List.singleton_append]
      have hpred : ks.filter (fun q => decide (q ∉ acc ++ [k])) =
          ks.filter (fun a => decide (a ≠ k) && decide (a ∉ acc)) := by
        apply List.filter_congr
        intro q _
        by_cases h1 : q = k <;> by_cases h2 : q ∈ acc <;> simp [h1, h2]
      rw [hpred]

theorem guard_fold_eq (ks acc : List String) :
    ks.foldl (fun a k => if k = "type" then a else addField a k) acc =
      (ks.filter fun k => k ≠ "type").foldl addField acc := by
  induction ks generalizing acc with
  | nil => rfl
  | cons k ks ih =>
    by_cases hk : k = "type"
    · simp [hk, ih]
    · simp [hk, ih]

theorem addRowFields_eq (acc : List String) (row : BaseResultRow) :
    addRowFields acc row = (rowKeyStream row).foldl addField acc := by
  rw [rowKeyStream]
  cases hf : row.formulas with
  | none =>
    simp only [addRowFields, hf]
    rw [guard_fold_eq, List.append_nil]
  | some fs =>
    simp only [addRowFields, hf]
    rw [guard_fold_eq, List.foldl_append]
    rw [List.foldl_map, List.foldl_map]

theorem rows_foldl_eq (rows : List BaseResultRow) (acc : List String) :
    rows.foldl addRowFields acc =
      ((rows.map rowKeyStream).flatten).foldl addField acc := by
  induction rows generalizing acc with
  | nil => rfl
  | cons r rs ih =>
    rw [List.foldl_cons, addRowFields_eq, ih]
    simp [List.foldl_append]

theorem filter_nil_mem_eq (l : List String) :
    (l.filter fun k => decide (k ∉ ([] : List String))) = l := by
  apply List.filter_eq_self.mpr
  intro a _
  simp

theorem autoDetect_eq_spec (b : BaseFile) (rows : List BaseResultRow) :
    resolveColumns.autoDetect b rows = autoDetectSpec b rows := by
  rw [resolveColumns.autoDetect, autoDetectSpec]
  cases hf : b.formulas with
  | none =>
    simp only [docFormulaStream, hf]
    rw [rows_foldl_eq, foldl_addField_eq, filter_nil_mem_eq, List.append_nil,
      List.nil_append]
  | some fs =>
    simp only [docFormulaStream, hf]
    rw [rows_foldl_eq, List.foldl_map]
    have hcomb : List.foldl (fun x y => addField x ("formula." ++ Prod.fst y))
        (((rows.map rowKeyStream).flatten).foldl addField []) fs =
        List.foldl addField
          (((rows.map rowKeyStream).flatten).foldl addField [])
          (fs.map fun e => "formula." ++ e.1) := by
      rw [List.foldl_map]
    rw [hcomb, ← List.foldl_append, foldl_addField_eq, filter_nil_mem_eq,
      List.nil_append]

/-! ## Claim theorems -/

/-- Claim C1.  The claim states that quoted string literal contents are
inert to the three rewrite rules of the expression translation.  The code
is a plain global regex replace with no literal tokenization (its own
comment promises to be careful about string literals), so the `note.`
occurrence inside the quoted literal of `status == "note.done"` is
stripped and the `file(a)` occurrence inside the quoted literal of
`label == "file(a)"` is rewritten to a method call: both literals are
corrupted, refuting the claim on the code as written. -/
theorem translateExpression_rewrites_inside_string_literal :
    translateExpression "status == \"note.done\"" = "status == \"done\"" ∧
    translateExpression "label == \"file(a)\"" = "label == \"a.asFile()\"" :=
  ⟨rfl, rfl⟩

/-- Claim C2, counterexample.  `normalizePropertyId` is not idempotent on
all strings: on `note.note.x` the first application yields `note.x` and
the second strips again, yielding `x`. -/
theorem normalizePropertyId_not_idempotent_on_note_note :
    normalizePropertyId (normalizePropertyId "note.note.x") ≠
      normalizePropertyId "note.note.x" := by decide

/-- Claim C2, amended.  `normalizePropertyId` is idempotent on every
string that does not begin with the doubled prefix `note.note.`; only
strings with a repeated prefix are re-stripped by a second
application. -/
theorem normalizePropertyId_idempotent_unless_double_note (s : String)
    (h : strStartsWith s "note.note." = false) :
    normalizePropertyId (normalizePropertyId s) = normalizePropertyId s := by
  unfold normalizePropertyId strStartsWith strDrop at *
  by_cases h1 : ("note.".data).isPrefixOf s.data = true
  · obtain ⟨t, ht⟩ := isPrefixOf_note_split _ h1
    have hdata : (String.mk (s.data.drop 5)).data = t := by
      show s.data.drop 5 = t
      rw [ht]
      have h5 : ("note.".data).length = 5 := by decide
      rw [← h5, List.drop_left]
    rw [if_pos h1]
    have h2 : ("note.".data).isPrefixOf (String.mk (s.data.drop 5)).data
        = false := by
      rw [hdata]
      by_contra hc
      simp only [Bool.not_eq_false] at hc
      rw [List.isPrefixOf_iff_prefix] at hc
      have hdouble : ("note.note.".data).isPrefixOf s.data = true := by
        rw [List.isPrefixOf_iff_prefix, ht]
        have hsplit : "note.note.".data = "note.".data ++ "note.".data := by
          decide
        rw [hsplit]
        exact (List.prefix_append_right_inj _).mpr hc
      rw [hdouble] at h
      simp at h
    rw [if_neg (by simp [h2])]
  · rw [if_neg h1, if_neg h1]

/-- Witness for the amended claim C2 at the concrete input `note.x`. -/
theorem normalizePropertyId_idempotent_unless_double_note_witness :
    strStartsWith "note.x" "note.note." = false ∧
    normalizePropertyId (normalizePropertyId "note.x") =
      normalizePropertyId "note.x" :=
  ⟨by rfl, normalizePropertyId_idempotent_unless_double_note "note.x" (by rfl)⟩

/-- Claim C3, counterexample.  A document whose `views` sequence is
present but empty yields an empty result sequence (no synthetic view is
substituted and no query is issued), unlike a document with no `views`
section, which yields exactly one synthetic table-view result. -/
theorem executeBase_empty_views_yields_no_results :
    executeBase doc3 q0 {} = Except.ok [] ∧
    doc3.views = some [] ∧
    executeBase {} q0 {} = Except.ok
      [{ view := syntheticTableView, columns := [], displayNames := [],
         rows := [], totalCount := 0, hasMore := false }] :=
  ⟨rfl, rfl, rfl⟩

/-- Claim C3, amended.  Only an absent `views` section falls back to the
single synthetic table view; a present-but-empty `views` sequence makes
`executeBase` return an empty result sequence, independent of the
collaborator. -/
theorem executeBase_empty_views_vs_absent_views :
    (∀ (b : BaseFile) (q : QueryRequest → QueryResponse)
        (opts : ExecuteOptions),
       b.views = some [] → opts.viewName = none →
       executeBase b q opts = Except.ok []) ∧
    (∀ (b : BaseFile) (q : QueryRequest → QueryResponse)
        (opts : ExecuteOptions),
       b.views = none → opts.viewName = none →
       executeBase b q opts =
         (executeView b syntheticTableView q opts).map fun r => [r]) := by
  constructor
  · intro b q opts hv hn
    simp [executeBase, hv, hn, runViews]
  · intro b q opts hv hn
    simp [executeBase, hv, hn, runViews]
    cases executeView b syntheticTableView q opts <;>
      simp [runViews, Except.map]

/-- Witness for the amended claim C3 at concrete documents. -/
theorem executeBase_empty_views_vs_absent_views_witness :
    executeBase doc3 q0 {} = Except.ok [] ∧
    executeBase {} q0 {} =
      (executeView {} syntheticTableView q0 {}).map (fun r => [r]) :=
  ⟨executeBase_empty_views_vs_absent_views.1 doc3 q0 {} rfl rfl,
    executeBase_empty_views_vs_absent_views.2 {} q0 {} rfl rfl⟩

/-- Claim C4, counterexample.  A `formulas` section that deserialized to
a sequence is not dropped by `validateBaseStructure`: a JavaScript array
satisfies `typeof x === "object"`, so the sequence is retained
verbatim. -/
theorem validateBaseStructure_retains_sequence_formulas :
    (validateBaseStructure rawSeqFormulas).formulas
      = some (.arr [.str "x"]) ∧
    ((validateBaseStructure rawSeqFormulas).formulas).isSome = true :=
  ⟨rfl, rfl⟩

/-- Claim C4, amended.  The shape policy is not one consistent check:
`formulas`/`properties`/`summaries` are dropped only when the value
fails JavaScript's `typeof x === "object"` (so sequences — and `null` —
are retained), while `views` is dropped exactly when the value is not a
sequence. -/
theorem validateBaseStructure_section_shape_policy :
    (∀ (raw : RawBaseFile) (y : Val), raw.formulas = some y →
       (validateBaseStructure raw).formulas =
         (if jsTypeofIsObject y then some y else none)) ∧
    (∀ (raw : RawBaseFile) (y : Val), raw.properties = some y →
       (validateBaseStructure raw).properties =
         (if jsTypeofIsObject y then some y else none)) ∧
    (∀ (raw : RawBaseFile) (y : Val), raw.summaries = some y →
       (validateBaseStructure raw).summaries =
         (if jsTypeofIsObject y then some y else none)) ∧
    (∀ (raw : RawBaseFile) (l : List Val), raw.views = some (.arr l) →
       (validateBaseStructure raw).views = some l) ∧
    (∀ (raw : RawBaseFile) (y : Val), raw.views = some y →
       jsIsArray y = false → (validateBaseStructure raw).views = none) ∧
    (∀ l : List Val, jsTypeofIsObject (.arr l) = true) := by
  refine ⟨?_, ?_, ?_, ?_, ?_, ?_⟩
  · intro raw y h; simp [validateBaseStructure, h]
  · intro raw y h; simp [validateBaseStructure, h]
  · intro raw y h; simp [validateBaseStructure, h]
  · intro raw l h; simp [validateBaseStructure, h]
  · intro raw y h hna
    cases y <;> simp_all [validateBaseStructure, jsIsArray]
  · intro l; rfl

/-- Witness for the amended claim C4 at concrete raw documents. -/
theorem validateBaseStructure_section_shape_policy_witness :
    rawSeqFormulas.formulas = some (.arr [.str "x"]) ∧
    (validateBaseStructure rawSeqFormulas).formulas =
      (if jsTypeofIsObject (.arr [.str "x"]) then some (.arr [.str "x"])
       else none) ∧
    (validateBaseStructure { views := some (Val.str "v") }).views = none ∧
    jsTypeofIsObject (.arr []) = true :=
  ⟨rfl, validateBaseStructure_section_shape_policy.1 rawSeqFormulas _ rfl,
    validateBaseStructure_section_shape_policy.2.2.2.2.1
      { views := some (Val.str "v") } _ rfl rfl,
    validateBaseStructure_section_shape_policy.2.2.2.2.2 []⟩

/-- Claim C5.  NOT desugaring: for two or more children,
`translateFilter` of a `not` node produces a NOT of the implicit AND of
the translated children, observably identical to translating the NOT of
an explicit single AND child; a single child is wrapped by a unary
NOT. -/
theorem translateFilter_not_desugaring :
    (∀ l : List FilterExpression, 2 ≤ l.length →
       translateFilter (.not l) = .not (.and (l.map translateFilter)) ∧
       translateFilter (.not l) = translateFilter (.not [.and l])) ∧
    (∀ a : FilterExpression,
       translateFilter (.not [a]) = .not (translateFilter a)) := by
  constructor
  · intro l hl
    match l, hl with
    | a :: b :: rest, _ =>
      constructor
      · simp [translateFilter, translateFilterList, translateFilterList_eq_map]
      · simp [translateFilter, translateFilterList, translateFilterList_eq_map]
  · intro a
    simp [translateFilter, translateFilterList]

/-- Witness for claim C5 at concrete two-element and one-element `not`
nodes. -/
theorem translateFilter_not_desugaring_witness :
    (2 ≤ ([FilterExpression.leaf "a", FilterExpression.leaf "b"] :
        List FilterExpression).length ∧
     translateFilter (.not [.leaf "a", .leaf "b"]) =
       .not (.and ([FilterExpression.leaf "a",
         FilterExpression.leaf "b"].map translateFilter)) ∧
     translateFilter (.not [.leaf "a", .leaf "b"]) =
       translateFilter (.not [.and [.leaf "a", .leaf "b"]])) ∧
    translateFilter (.not [.leaf "c"]) = .not (translateFilter (.leaf "c")) :=
  ⟨⟨by decide,
    (translateFilter_not_desugaring.1 [.leaf "a", .leaf "b"] (by decide)).1,
    (translateFilter_not_desugaring.1 [.leaf "a", .leaf "b"] (by decide)).2⟩,
    translateFilter_not_desugaring.2 (.leaf "c")⟩

/-- Claim C6.  Column resolution obeys strict precedence with no
merging: non-empty field overrides are used verbatim for every view;
otherwise a non-empty view `order` list is used with each entry
normalized; otherwise columns are auto-detected as the first-seen-order
union of row front-matter keys (excluding the literal key `type`) and
`formula.`-prefixed entries from rows and from the document's declared
formulas. -/
theorem resolveColumns_strict_precedence :
    (∀ (b : BaseFile) (v : BaseView) (rows : List BaseResultRow)
        (fo : List String), fo ≠ [] →
       resolveColumns b v rows (some fo) = fo) ∧
    (∀ (b : BaseFile) (v : BaseView) (rows : List BaseResultRow)
        (fo : Option (List String)) (ord : List String),
       (fo = none ∨ fo = some []) → v.order = some ord → ord ≠ [] →
       resolveColumns b v rows fo = ord.map normalizePropertyId) ∧
    (∀ (b : BaseFile) (v : BaseView) (rows : List BaseResultRow)
        (fo : Option (List String)),
       (fo = none ∨ fo = some []) → (v.order = none ∨ v.order = some []) →
       resolveColumns b v rows fo = autoDetectSpec b rows) := by
  refine ⟨?_, ?_, ?_⟩
  · intro b v rows fo hfo
    have : fo.length > 0 := List.length_pos.mpr hfo
    simp [resolveColumns, this]
  · intro b v rows fo ord hfo hord hne
    have hlen : ord.length > 0 := List.length_pos.mpr hne
    rcases hfo with h | h <;>
      simp [resolveColumns, h, resolveColumns.resolveColumnsNoOverride,
        hord, hlen]
  · intro b v rows fo hfo hord
    have hauto := autoDetect_eq_spec b rows
    rcases hfo with h | h <;> rcases hord with h2 | h2 <;>
      simp [resolveColumns, h, resolveColumns.resolveColumnsNoOverride,
        h2, hauto]

/-- Witness for claim C6: overrides beat a non-empty `order` list, the
`order` list is normalized when overrides are absent, and auto-detection
matches the first-seen union on a concrete document and row set. -/
theorem resolveColumns_strict_precedence_witness :
    (["x"] : List String) ≠ [] ∧
    resolveColumns {} { type := "table", order := some ["note.y", "z"] } []
      (some ["x"]) = ["x"] ∧
    resolveColumns {} { type := "table", order := some ["note.y", "z"] } []
      none = ["note.y", "z"].map normalizePropertyId ∧
    resolveColumns { formulas := some [("g", Val.str "1")] }
      { type := "table" }
      [{ path := "p", frontmatter := [("a", Val.num 1), ("type", Val.str "t")],
         formulas := some [("f", Val.num 2)] }] none =
      autoDetectSpec { formulas := some [("g", Val.str "1")] }
        [{ path := "p",
           frontmatter := [("a", Val.num 1), ("type", Val.str "t")],
           formulas := some [("f", Val.num 2)] }] := by
  refine ⟨by decide, ?_, ?_, ?_⟩
  · exact resolveColumns_strict_precedence.1 {} _ [] ["x"] (by decide)
  · exact resolveColumns_strict_precedence.2.1 {} _ [] none ["note.y", "z"]
      (Or.inl rfl) rfl (by decide)
  · exact resolveColumns_strict_precedence.2.2 _ _ _ none (Or.inl rfl)
      (Or.inl rfl)

/-- Claim C7, counterexample.  The claim quantifies over every
`options.viewName` that matches no view name, but the empty string is a
falsy value, so `executeBase` skips view matching entirely and runs all
views successfully instead of failing with `view_not_found` — even
though `""` matches no view name of `doc7` (whose only view is named
`Alpha`). -/
theorem executeBase_empty_viewName_skips_matching :
    executeBase doc7 q0 { viewName := some "" } = Except.ok
      [{ view := { type := "table", name := some "Alpha" }, columns := [],
         displayNames := [], rows := [], totalCount := 0,
         hasMore := false }] ∧
    doc7.views = some [{ type := "table", name := some "Alpha" }] :=
  ⟨rfl, rfl⟩

/-- Claim C7, amended.  For every non-empty `options.viewName` that
matches no view name case-insensitively, `executeBase` fails with a
`view_not_found` error whose detail lists every available view label in
document order (unnamed views labeled with their kind), independent of
the collaborator — so no query is issued and no partial results are
returned. -/
theorem executeBase_view_not_found_error (b : BaseFile)
    (q : QueryRequest → QueryResponse) (opts : ExecuteOptions) (vn : String)
    (hvn : opts.viewName = some vn) (hne : vn ≠ "")
    (hnm : ∀ v ∈ b.views.getD [syntheticTableView], ∀ n, v.name = some n →
      strToLower n ≠ strToLower vn) :
    executeBase b q opts = Except.error
      { message := "view not found: \"" ++ vn ++ "\" (available: "
          ++ String.intercalate ", "
              ((b.views.getD [syntheticTableView]).map viewLabel) ++ ")"
        code := "view_not_found" } := by
  have hfind : (b.views.getD [syntheticTableView]).find? (fun v =>
      match v.name with
      | some n => strToLower n = strToLower vn
      | none => false) = none := by
    rw [List.find?_eq_none]
    intro v hv
    match hn : v.name with
    | some n => simpa using hnm v hv n hn
    | none => simp
  simp [executeBase, hvn, hne, hfind]

/-- Witness for the amended claim C7: requesting `Zeta` from a document
whose only view is named `Alpha` fails with the expected error. -/
theorem executeBase_view_not_found_error_witness :
    ("Zeta" : String) ≠ "" ∧
    executeBase doc7 q0 { viewName := some "Zeta" } = Except.error
      { message := "view not found: \"" ++ "Zeta" ++ "\" (available: "
          ++ String.intercalate ", "
              ((doc7.views.getD [syntheticTableView]).map viewLabel) ++ ")"
        code := "view_not_found" } := by
  refine ⟨by decide,
    executeBase_view_not_found_error doc7 q0 { viewName := some "Zeta" }
      "Zeta" rfl (by decide) ?_⟩
  intro v hv n hn
  simp [doc7] at hv
  subst hv
  cases hn
  decide

/-- Claim C8.  JSON formatting of exactly one view result is the bare
per-view object of shape `view`/`columns`/`results`/`meta` (no array
wrapper), while two or more view results format as the array of those
same objects in view order. -/
theorem printJSON_single_view_unwrap :
    (∀ r : BaseResult,
       printJSON [r] = viewResultToJson r ∧
       ∃ fields, viewResultToJson r = Val.obj fields ∧
         fields.map Prod.fst = ["view", "columns", "results", "meta"]) ∧
    (∀ rs : List BaseResult, 2 ≤ rs.length →
       printJSON rs = Val.arr (rs.map viewResultToJson)) := by
  constructor
  · intro r
    exact ⟨rfl, _, rfl, rfl⟩
  · intro rs hrs
    match rs, hrs with
    | a :: b :: rest, _ => simp [printJSON]

/-- Witness for claim C8 at one and two concrete view results. -/
theorem printJSON_single_view_unwrap_witness :
    printJSON [r8a] = viewResultToJson r8a ∧
    printJSON [r8a, r8a] = Val.arr ([r8a, r8a].map viewResultToJson) :=
  ⟨(printJSON_single_view_unwrap.1 _).1,
    printJSON_single_view_unwrap.2 _ (by decide)⟩

/-- Claim C9.  `paths` output is exactly the first-seen-order
deduplication of the concatenation of all views' row paths taken in
view order: each distinct path appears once, at the position of its
first occurrence. -/
theorem printPaths_first_seen_dedup (results : List BaseResult) :
    printPaths results =
      firstSeen
        ((results.map fun r => r.rows.map BaseResultRow.path).flatten) := by
  rw [printPaths, printPathsAux_eq_firstSeen]
  congr 1
  apply List.filter_eq_self.mpr
  intro a _
  simp

/-- Claim C10.  Neither parsing nor execution validates the limit:
`normalizeView` carries any present `limit` value through unchanged, and
with no `options.limit` override the query request forwards exactly the
view's (zero or negative) limit to the collaborator, while `executeView`
raises no error of its own when the collaborator reports none. -/
theorem limit_carried_and_forwarded_unvalidated :
    (∀ raw : RawBaseView, (normalizeView raw).limit = raw.limit) ∧
    (∀ (b : BaseFile) (v : BaseView) (q : QueryRequest → QueryResponse)
        (opts : ExecuteOptions) (z : Int),
       opts.limit = none → v.limit = some z → z ≤ 0 →
       (buildQueryRequest b v opts).limit = some z ∧
       ((q (buildQueryRequest b v opts)).error = none →
         ∃ r, executeView b v q opts = Except.ok r)) := by
  constructor
  · intro raw; rfl
  · intro b v q opts z hl hv _
    constructor
    · simp [buildQueryRequest, hl, Option.orElse, hv]
    · intro herr
      simp [executeView, herr]

/-- Witness for claim C10 at a view with limit `-3`. -/
theorem limit_carried_and_forwarded_unvalidated_witness :
    (normalizeView { limit := some (-3) }).limit = some (-3) ∧
    ((buildQueryRequest {} { type := "table", limit := some (-3) } {}).limit
        = some (-3) ∧
     ((q0 (buildQueryRequest {}
          { type := "table", limit := some (-3) } {})).error = none →
       ∃ r, executeView {} { type := "table", limit := some (-3) } q0 {}
        = Except.ok r)) :=
  ⟨limit_carried_and_forwarded_unvalidated.1 _,
    limit_carried_and_forwarded_unvalidated.2 {}
      { type := "table", limit := some (-3) } q0 {} (-3) rfl rfl (by decide)⟩
